import Mathlib

/-!
Verification of the merchant commerce backend's fulfillment-consistency core.

The definitions below are a shallow embedding of the TypeScript source:
the inventory ledger mutations (the inline SQL statements in
`src/routes/checkout.ts`, `src/routes/webhooks.ts`, the inventory routes and
`src/cron.ts`), the checkout reservation sequence with its rollback loop, the
Stripe payment-event ingestion handler, the discount usage limiter from
`src/routes/orders.ts`, the outbound webhook delivery loop and failed-delivery
sweep from the webhook dispatcher library, and the cart item-add handler.
Machine integers are modelled as `Int` (SQLite INTEGER columns), and SQL
conditional updates return `Option`/`Except` so that `none` corresponds to
`changes = 0`.
-/

namespace Merchant

/-- An inventory row: `on_hand` and `reserved` counters for one (store, sku),
from the `inventory` table of the schema. -/
structure Inv where
  on_hand : Int
  reserved : Int
deriving Repr, DecidableEq

/-- `available = on_hand - reserved`, as computed throughout the routes. -/
def Inv.available (i : Inv) : Int := i.on_hand - i.reserved

/-- The spec's ledger invariant `0 ≤ reserved ≤ on_hand`. -/
def invOk (i : Inv) : Prop := 0 ≤ i.reserved ∧ i.reserved ≤ i.on_hand

instance (i : Inv) : Decidable (invOk i) := by unfold invOk; infer_instance

/-- The conditional reservation update from `checkout.ts`:
`UPDATE inventory SET reserved = reserved + qty WHERE ... AND on_hand - reserved >= qty`.
`none` models `changes = 0` (condition false at the moment of the write). -/
def reserve (i : Inv) (qty : Int) : Option Inv :=
  if qty ≤ i.on_hand - i.reserved then some { i with reserved := i.reserved + qty }
  else none

/-- The release used by `cron.ts`:
`UPDATE inventory SET reserved = MAX(reserved - qty, 0) WHERE ...` (floored at zero). -/
def releaseFloored (i : Inv) (qty : Int) : Inv :=
  { i with reserved := max (i.reserved - qty) 0 }

/-- The release used by the checkout rollback loop and the Stripe-error path in
`checkout.ts`: `UPDATE inventory SET reserved = reserved - qty WHERE ...`
(no floor). -/
def releaseRaw (i : Inv) (qty : Int) : Inv :=
  { i with reserved := i.reserved - qty }

/-- The sale commit from `webhooks.ts`:
`UPDATE inventory SET reserved = reserved - qty, on_hand = on_hand - qty WHERE ...`
(unconditional). -/
def commitSale (i : Inv) (qty : Int) : Inv :=
  { on_hand := i.on_hand - qty, reserved := i.reserved - qty }

/-- The adjust handler (`POST /v1/inventory/:sku/adjust`): rejected (`none`)
only when `delta < 0 ∧ on_hand + delta < 0`, otherwise `on_hand += delta`. -/
def adjust (i : Inv) (delta : Int) : Option Inv :=
  if delta < 0 ∧ i.on_hand + delta < 0 then none
  else some { i with on_hand := i.on_hand + delta }

/-- A sequence of single-line checkout reservation attempts against one SKU.
Each attempt performs the conditional `reserve`; a failed attempt leaves the
row unchanged (a single-line cart's rollback loop releases nothing).
Returns the final row and the total quantity successfully reserved. -/
def runAttempts : Inv → List Int → Inv × Int
  | i, [] => (i, 0)
  | i, q :: qs =>
    match reserve i q with
    | some i2 =>
      let r := runAttempts i2 qs
      (r.1, q + r.2)
    | none => runAttempts i qs

theorem reserve_on_hand_eq {i i' : Inv} {q : Int} (h : reserve i q = some i') :
    i'.on_hand = i.on_hand := by
  unfold reserve at h
  split at h
  · cases h; rfl
  · cases h

theorem reserve_reserved_le {i i' : Inv} {q : Int} (h : reserve i q = some i') :
    i'.reserved ≤ i'.on_hand := by
  unfold reserve at h
  split at h
  · rename_i hc
    cases h
    simp only
    omega
  · cases h

theorem runAttempts_on_hand (qs : List Int) (i : Inv) :
    (runAttempts i qs).1.on_hand = i.on_hand := by
  induction qs generalizing i with
  | nil => rfl
  | cons q qs ih =>
    unfold runAttempts
    cases hr : reserve i q with
    | none => simpa using ih i
    | some i2 =>
      simp only
      rw [ih i2, reserve_on_hand_eq hr]

theorem runAttempts_total (qs : List Int) (i : Inv) :
    (runAttempts i qs).2 = (runAttempts i qs).1.reserved - i.reserved := by
  induction qs generalizing i with
  | nil => simp [runAttempts]
  | cons q qs ih =>
    unfold runAttempts
    cases hr : reserve i q with
    | none => simpa using ih i
    | some i2 =>
      have h2 : i2.reserved = i.reserved + q := by
        unfold reserve at hr
        split at hr
        · cases hr; rfl
        · cases hr
      simp only
      rw [ih i2, h2]
      ring

theorem runAttempts_reserved_le (qs : List Int) (i : Inv)
    (h : i.reserved ≤ i.on_hand) :
    (runAttempts i qs).1.reserved ≤ (runAttempts i qs).1.on_hand := by
  induction qs generalizing i with
  | nil => simpa [runAttempts] using h
  | cons q qs ih =>
    unfold runAttempts
    cases hr : reserve i q with
    | none => simpa using ih i h
    | some i2 =>
      simp only
      exact ih i2 (reserve_reserved_le hr)

/-- C1: reserving a line item's stock succeeds, incrementing `reserved` by the
quantity, if and only if `on_hand - reserved ≥ qty` at the moment of the
conditional update; consequently, starting from a SKU row with
`on_hand - reserved = N` available units (`reserved ≤ on_hand`), any sequence
of checkout attempts successfully reserves at most `N` units in total. -/
theorem reserve_iff_available_and_oversell_bound
    (i : Inv) (qty : Int) (qs : List Int) (hinv : i.reserved ≤ i.on_hand) :
    ((reserve i qty).isSome ↔ qty ≤ i.on_hand - i.reserved) ∧
    (∀ i', reserve i qty = some i' →
      i'.reserved = i.reserved + qty ∧ i'.on_hand = i.on_hand) ∧
    (runAttempts i qs).2 ≤ i.on_hand - i.reserved := by
  refine ⟨?_, ?_, ?_⟩
  · unfold reserve
    split <;> simp_all
  · intro i' h
    unfold reserve at h
    split at h
    · cases h; exact ⟨rfl, rfl⟩
    · cases h
  · have h1 := runAttempts_total qs i
    have h2 := runAttempts_reserved_le qs i hinv
    have h3 := runAttempts_on_hand qs i
    omega

/-- Witness for C1 at the concrete row `⟨on_hand 3, reserved 1⟩` (N = 2) with
attempts [1, 2, 1]: only 2 units end up reserved. -/
theorem reserve_iff_available_and_oversell_bound_witness :
    (1 : Int) ≤ 3 ∧
    (((reserve ⟨3, 1⟩ 2).isSome ↔ (2 : Int) ≤ 3 - 1) ∧
    (∀ i', reserve ⟨3, 1⟩ 2 = some i' →
      i'.reserved = 1 + 2 ∧ i'.on_hand = 3) ∧
    (runAttempts ⟨3, 1⟩ [1, 2, 1]).2 ≤ 3 - 1) :=
  ⟨by decide, reserve_iff_available_and_oversell_bound ⟨3, 1⟩ 2 [1, 2, 1] (by decide)⟩

/-- C2 counterexample: the adjust handler accepts `delta = -4` on the row
`⟨on_hand 5, reserved 3⟩` (since `5 - 4 = 1 ≥ 0`), committing a state with
`reserved = 3 > on_hand = 1`: a mutation that violates `0 ≤ reserved ≤ on_hand`
is applied, not rejected. -/
theorem adjust_commits_invariant_violation :
    adjust ⟨5, 3⟩ (-4) = some ⟨1, 3⟩ ∧ ¬ invOk ⟨1, 3⟩ := by decide

/-- C2 amended: of the four mutations, only the conditional `reserve` and the
reaper's floored release preserve the full invariant `0 ≤ reserved ≤ on_hand`;
the adjust handler rejects exactly the deltas that would drive `on_hand` below
zero and so preserves only `0 ≤ on_hand`, leaving `reserved` untouched (it may
end above `on_hand`), and the sale-commit is applied unconditionally. -/
theorem inventory_mutation_invariant_partial
    (i : Inv) (q d : Int) (hq : 0 ≤ q) (hok : invOk i) :
    (∀ i', reserve i q = some i' → invOk i') ∧
    invOk (releaseFloored i q) ∧
    (∀ i', adjust i d = some i' → 0 ≤ i'.on_hand ∧ i'.reserved = i.reserved) ∧
    (adjust i d = none ↔ d < 0 ∧ i.on_hand + d < 0) ∧
    commitSale i q = ⟨i.on_hand - q, i.reserved - q⟩ := by
  obtain ⟨h0, h1⟩ := hok
  refine ⟨?_, ?_, ?_, ?_, rfl⟩
  · intro i' h
    unfold reserve at h
    split at h
    · cases h
      constructor
      · simp only; omega
      · simp only; omega
    · cases h
  · constructor
    · simp [releaseFloored]
    · simp only [releaseFloored]
      omega
  · intro i' h
    unfold adjust at h
    split at h
    · cases h
    · cases h
      refine ⟨?_, rfl⟩
      simp only
      omega
  · unfold adjust
    split <;> simp_all

/-- Witness for C2's amended theorem at `i = ⟨4, 2⟩`, `q = 1`, `d = -3`. -/
theorem inventory_mutation_invariant_partial_witness :
    ((0 : Int) ≤ 1 ∧ invOk ⟨4, 2⟩) ∧
    ((∀ i', reserve ⟨4, 2⟩ 1 = some i' → invOk i') ∧
    invOk (releaseFloored ⟨4, 2⟩ 1) ∧
    (∀ i', adjust ⟨4, 2⟩ (-3) = some i' → 0 ≤ i'.on_hand ∧ i'.reserved = 2) ∧
    (adjust ⟨4, 2⟩ (-3) = none ↔ (-3 : Int) < 0 ∧ 4 + (-3) < 0) ∧
    commitSale ⟨4, 2⟩ 1 = ⟨4 - 1, 2 - 1⟩) :=
  ⟨⟨by decide, by decide⟩,
   inventory_mutation_invariant_partial ⟨4, 2⟩ 1 (-3) (by decide) (by decide)⟩

/-! ### The multi-SKU ledger

A store's inventory table, keyed by SKU (the schema enforces
`UNIQUE(store_id, sku)`). An SQL `UPDATE ... WHERE sku = ?` touches every
matching row; the model applies the row function to every matching entry. -/

/-- The inventory table of one store: association list from SKU to row. -/
abbrev Ledger := List (String × Inv)

/-- Look up the row for a SKU (the `SELECT * FROM inventory WHERE sku = ?`). -/
def lookupSku (l : Ledger) (sku : String) : Option Inv :=
  match l with
  | [] => none
  | (s, i) :: rest => if s = sku then some i else lookupSku rest sku

/-- Unconditional per-SKU update (`UPDATE inventory SET ... WHERE sku = ?`):
every matching row is rewritten; no row matching means zero changes. -/
def updateSku (l : Ledger) (sku : String) (f : Inv → Inv) : Ledger :=
  l.map (fun p => if p.1 = sku then (p.1, f p.2) else p)

/-- The conditional reservation update at ledger level: rows matching the SKU
whose `on_hand - reserved ≥ qty` get `reserved += qty`; `none` models
`changes = 0` (no row passed the condition). -/
def reserveL (l : Ledger) (sku : String) (qty : Int) : Option Ledger :=
  if l.any (fun p => p.1 = sku ∧ qty ≤ p.2.on_hand - p.2.reserved) then
    some (l.map (fun p =>
      if p.1 = sku ∧ qty ≤ p.2.on_hand - p.2.reserved then
        (p.1, { p.2 with reserved := p.2.reserved + qty })
      else p))
  else none

/-- Ledger-level floored release (the `MAX(reserved - qty, 0)` update in
`cron.ts`). -/
def releaseFlooredL (l : Ledger) (sku : String) (qty : Int) : Ledger :=
  updateSku l sku (fun i => releaseFloored i qty)

/-- Ledger-level unfloored release (the rollback and Stripe-error updates in
`checkout.ts`). -/
def releaseRawL (l : Ledger) (sku : String) (qty : Int) : Ledger :=
  updateSku l sku (fun i => releaseRaw i qty)

/-- Ledger-level sale commit (the update in `webhooks.ts`). -/
def commitSaleL (l : Ledger) (sku : String) (qty : Int) : Ledger :=
  updateSku l sku (fun i => commitSale i qty)

/-- A cart line item: (sku, qty). -/
abbrev Item := String × Int

/-- The Stripe-error release path of `checkout.ts` (lines 240-249): on a Stripe
session-creation error, every cart item's quantity is subtracted from
`reserved` with the unfloored update. -/
def stripeErrorRelease (l : Ledger) (items : List Item) : Ledger :=
  items.foldl (fun acc p => releaseRawL acc p.1 p.2) l

/-- C9 counterexample: the Stripe-error release path does not floor at zero:
releasing 1 unit of a SKU whose `reserved` is 0 leaves `reserved = -1`,
refuting "releasing more units than are currently reserved leaves reserved at
zero, never negative, on every code path". -/
theorem stripe_error_release_goes_negative :
    stripeErrorRelease [("A", ⟨0, 0⟩)] [("A", 1)] = [("A", ⟨0, -1⟩)] ∧
    ¬ (0 : Int) ≤ (-1 : Int) := by decide

/-- C9 amended: only the reaper sweep's release is floored at zero
(`MAX(reserved - qty, 0)`); the failed-checkout rollback and the Stripe-error
rollback use the unfloored `reserved = reserved - qty` update, which drives
`reserved` negative whenever more units are released than are reserved. -/
theorem release_floored_only_on_reaper_path (i : Inv) (q : Int) :
    0 ≤ (releaseFloored i q).reserved ∧
    (releaseFloored i q).reserved = max (i.reserved - q) 0 ∧
    (releaseFloored i q).on_hand = i.on_hand ∧
    (releaseRaw i q).reserved = i.reserved - q ∧
    (i.reserved < q → (releaseRaw i q).reserved < 0) := by
  refine ⟨?_, rfl, rfl, rfl, ?_⟩
  · simp [releaseFloored]
  · intro hlt
    simp only [releaseRaw]
    omega

/-- Witness for C9's amended theorem at `i = ⟨2, 0⟩`, `q = 1`, with the inner
implication discharged at that input. -/
theorem release_floored_only_on_reaper_path_witness :
    0 ≤ (releaseFloored ⟨2, 0⟩ 1).reserved ∧
    (releaseRaw ⟨2, 0⟩ 1).reserved < 0 :=
  ⟨(release_floored_only_on_reaper_path ⟨2, 0⟩ 1).1,
   (release_floored_only_on_reaper_path ⟨2, 0⟩ 1).2.2.2.2 (by decide)⟩

/-! ### Checkout reservation sequence (`POST /v1/carts/:cartId/checkout`) -/

/-- The rollback loop of `checkout.ts` (lines 186-193): iterate over the full
item list, stopping at the first item whose SKU equals the failing item's SKU
(`if (prevItem.sku === item.sku) break`), releasing each earlier item with the
unfloored update. -/
def rollbackPrev (failSku : String) : List Item → Ledger → Ledger
  | [], l => l
  | (s, q) :: rest, l =>
    if s = failSku then l else rollbackPrev failSku rest (releaseRawL l s q)

/-- The reservation loop: reserve each item in order; on the first conditional
update with zero changes, run the rollback loop over the full item list and
report insufficient inventory for the failing SKU, together with the ledger
left behind. -/
def reserveItemsAux (all : List Item) : List Item → Ledger → Except (String × Ledger) Ledger
  | [], l => .ok l
  | (s, q) :: rest, l =>
    match reserveL l s q with
    | some l2 => reserveItemsAux all rest l2
    | none => .error (s, rollbackPrev s all l)

/-- The checkout reservation sequence over a cart's items. On success the
returned ledger holds every item's reservation; on failure the error carries
the failing SKU and the post-rollback ledger. -/
def checkoutReserve (l : Ledger) (items : List Item) : Except (String × Ledger) Ledger :=
  reserveItemsAux items items l

/-- C3: with the same SKU on two lines, a failed checkout does NOT restore the
ledger. Cart `[(A,1), (A,2)]` against `A = ⟨on_hand 2, reserved 0⟩`: line 1
reserves 1 unit, line 2 fails (`2 ≤ 2 - 1` is false), and the rollback loop
breaks at the first line (its SKU equals the failing SKU) without releasing
it, leaving `reserved = 1` instead of the pre-checkout `0`. -/
theorem checkout_rollback_misses_duplicate_sku :
    checkoutReserve [("A", ⟨2, 0⟩)] [("A", 1), ("A", 2)] =
      Except.error ("A", [("A", ⟨2, 1⟩)]) ∧
    lookupSku [("A", (⟨2, 1⟩ : Inv))] "A" ≠ some ⟨2, 0⟩ := by
  constructor
  · rfl
  · decide

/-! ### Discount usage limiter (`POST /v1/orders/test`, `orders.ts`) -/

/-- A discount row: the fields used by the usage-reservation update. -/
structure Discount where
  status : String
  starts_at : Option Int
  expires_at : Option Int
  usage_count : Int
  usage_limit : Option Int
deriving Repr, DecidableEq

/-- The active-window condition of the conditional update:
`(starts_at IS NULL OR starts_at <= t) AND (expires_at IS NULL OR expires_at >= t)`. -/
def windowOk (d : Discount) (t : Int) : Bool :=
  (match d.starts_at with
   | none => true
   | some s => decide (s ≤ t)) &&
  (match d.expires_at with
   | none => true
   | some e => decide (t ≤ e))

/-- The discount usage reservation from `orders.ts` (lines 381-412). With a
non-null `usage_limit`, the conditional update increments `usage_count` by 1
only if the discount is active, within its window, and `usage_count <
usage_limit`; with a null limit only the activity/window conditions are
checked and the count is untouched. `none` models `changes = 0`. -/
def reserveUsage (d : Discount) (t : Int) : Option Discount :=
  match d.usage_limit with
  | some k =>
    if d.status = "active" ∧ windowOk d t ∧ d.usage_count < k then
      some { d with usage_count := d.usage_count + 1 }
    else none
  | none =>
    if d.status = "active" ∧ windowOk d t then some d else none

/-- The surrounding handler code: a conditional update with zero changes
throws, failing the whole order attempt. -/
def testOrderDiscountStep (d : Discount) (t : Int) : Except String Discount :=
  match reserveUsage d t with
  | some d2 => .ok d2
  | none =>
    .error (match d.usage_limit with
      | some _ => "Discount usage limit reached"
      | none => "Discount is no longer valid")

/-- A run of sequential usage-reservation attempts: the final discount row and
the number of attempts that succeeded. -/
def usageAttempts (d : Discount) (t : Int) : Nat → Discount × Nat
  | 0 => (d, 0)
  | n + 1 =>
    match reserveUsage d t with
    | some d2 =>
      let r := usageAttempts d2 t n
      (r.1, r.2 + 1)
    | none => usageAttempts d t n

theorem reserveUsage_some_fields {d d' : Discount} {t : Int} {k : Int}
    (hk : d.usage_limit = some k) (h : reserveUsage d t = some d') :
    d'.status = d.status ∧ d'.starts_at = d.starts_at ∧
    d'.expires_at = d.expires_at ∧ d'.usage_limit = d.usage_limit ∧
    d'.usage_count = d.usage_count + 1 := by
  simp only [reserveUsage, hk] at h
  split at h
  · rw [Option.some_inj] at h
    subst h
    exact ⟨rfl, rfl, rfl, hk.symm, rfl⟩
  · cases h

theorem reserveUsage_some_iff {d : Discount} {t : Int} {k : Int}
    (hk : d.usage_limit = some k) :
    (reserveUsage d t).isSome ↔
      (d.status = "active" ∧ windowOk d t = true ∧ d.usage_count < k) := by
  simp only [reserveUsage, hk]
  split <;> simp_all

theorem usageAttempts_count_le (t : Int) (k : Int) (n : Nat) :
    ∀ d : Discount, d.usage_limit = some k → d.usage_count ≤ k →
      (usageAttempts d t n).1.usage_count ≤ k := by
  induction n with
  | zero => intro d _ h; simpa [usageAttempts] using h
  | succ n ih =>
    intro d hk h
    unfold usageAttempts
    cases hr : reserveUsage d t with
    | none => simpa using ih d hk h
    | some d2 =>
      obtain ⟨_, _, _, h4, h5⟩ := reserveUsage_some_fields hk hr
      have hcnt : d.usage_count < k := by
        have := (reserveUsage_some_iff hk).mp (by rw [hr]; rfl)
        exact this.2.2
      simp only
      exact ih d2 (by rw [h4, hk]) (by omega)

theorem usageAttempts_successes (t : Int) (k : Int) (n : Nat) :
    ∀ d : Discount, d.usage_limit = some k → d.status = "active" →
      windowOk d t = true →
      (usageAttempts d t n).2 = min n (k - d.usage_count).toNat := by
  induction n with
  | zero => intro d _ _ _; simp [usageAttempts]
  | succ n ih =>
    intro d hk hs hw
    unfold usageAttempts
    cases hr : reserveUsage d t with
    | none =>
      have hge : k ≤ d.usage_count := by
        by_contra hlt
        have : (reserveUsage d t).isSome :=
          (reserveUsage_some_iff hk).mpr ⟨hs, hw, by omega⟩
        rw [hr] at this
        simp at this
      have hz : (k - d.usage_count).toNat = 0 := by omega
      simp only
      rw [ih d hk hs hw, hz]
      simp
    | some d2 =>
      obtain ⟨h1, h2, h3, h4, h5⟩ := reserveUsage_some_fields hk hr
      have hcnt : d.usage_count < k :=
        ((reserveUsage_some_iff hk).mp (by rw [hr]; rfl)).2.2
      have hw2 : windowOk d2 t = true := by
        unfold windowOk at hw ⊢
        rw [h2, h3]
        exact hw
      simp only
      rw [ih d2 (by rw [h4, hk]) (by rw [h1, hs]) hw2, h5]
      omega

/-- C5: for a discount with `usage_limit = K`, the usage reservation
increments `usage_count` by 1 exactly when the discount is active, within its
window and `usage_count < K`; therefore `usage_count` never exceeds `K` over
any run of attempts, a fresh discount admits exactly `min n K` successes over
`n` attempts (so exactly `K` once `n ≥ K`), and a conditional update with
zero affected rows fails the whole order attempt with the limit-exhausted
error. -/
theorem discount_usage_limit_enforced
    (d : Discount) (t : Int) (k : Int) (n : Nat)
    (hk : d.usage_limit = some k) :
    ((reserveUsage d t).isSome ↔
      (d.status = "active" ∧ windowOk d t = true ∧ d.usage_count < k)) ∧
    (∀ d', reserveUsage d t = some d' →
      d'.usage_count = d.usage_count + 1) ∧
    (d.usage_count ≤ k → (usageAttempts d t n).1.usage_count ≤ k) ∧
    (d.status = "active" → windowOk d t = true →
      (usageAttempts d t n).2 = min n (k - d.usage_count).toNat) ∧
    (reserveUsage d t = none ↔
      testOrderDiscountStep d t = Except.error "Discount usage limit reached") := by
  refine ⟨reserveUsage_some_iff hk, ?_, ?_, ?_, ?_⟩
  · intro d' h
    exact (reserveUsage_some_fields hk h).2.2.2.2
  · exact usageAttempts_count_le t k n d hk
  · exact usageAttempts_successes t k n d hk
  · unfold testOrderDiscountStep
    cases hr : reserveUsage d t with
    | none => rw [hk]; simp
    | some d2 => simp

/-- Witness for C5 at a fresh active discount with `K = 2` and 5 attempts at
time 10: exactly 2 succeed. -/
theorem discount_usage_limit_enforced_witness :
    ((Discount.mk "active" none (some 50) 0 (some 2)).usage_limit = some 2) ∧
    (((reserveUsage ⟨"active", none, some 50, 0, some 2⟩ 10).isSome ↔
      (("active" : String) = "active" ∧
        windowOk ⟨"active", none, some 50, 0, some 2⟩ 10 = true ∧ (0 : Int) < 2)) ∧
    (∀ d', reserveUsage ⟨"active", none, some 50, 0, some 2⟩ 10 = some d' →
      d'.usage_count = 0 + 1) ∧
    ((0 : Int) ≤ 2 →
      (usageAttempts ⟨"active", none, some 50, 0, some 2⟩ 10 5).1.usage_count ≤ 2) ∧
    (("active" : String) = "active" →
      windowOk ⟨"active", none, some 50, 0, some 2⟩ 10 = true →
      (usageAttempts ⟨"active", none, some 50, 0, some 2⟩ 10 5).2 =
        min 5 ((2 : Int) - 0).toNat) ∧
    (reserveUsage ⟨"active", none, some 50, 0, some 2⟩ 10 = none ↔
      testOrderDiscountStep ⟨"active", none, some 50, 0, some 2⟩ 10 =
        Except.error "Discount usage limit reached")) :=
  ⟨rfl, discount_usage_limit_enforced ⟨"active", none, some 50, 0, some 2⟩ 10 2 5 rfl⟩

/-! ### Payment event ingestion (`POST /v1/webhooks/stripe`) and the reaper -/

/-- A cart row: the fields read by ingestion and the reaper. `checkoutAt`
models the `updated_at` timestamp the abandoned-checkout query compares to
the grace-period cutoff. -/
structure CartRec where
  id : String
  status : String
  sessionId : Option String
  checkoutAt : Int
  items : List Item
  discountId : Option String
deriving Repr, DecidableEq

/-- A verified Stripe event envelope: external id, type, and the `cart_id`
from the session metadata. -/
structure StripeEvent where
  id : String
  type : String
  cartId : Option String
deriving Repr, DecidableEq

/-- The store's persistent state touched by ingestion and the reaper.
`orders` lists the cart ids for which an order row was inserted;
`processedEvents` is the `events` dedup ledger (`stripe_event_id` column). -/
structure SysState where
  ledger : Ledger
  carts : List CartRec
  discounts : List (String × Discount)
  orders : List String
  processedEvents : List String
deriving Repr, DecidableEq

/-- `SELECT * FROM carts WHERE id = ?`. -/
def findCart (carts : List CartRec) (cid : String) : Option CartRec :=
  carts.find? (fun c => c.id == cid)

/-- One sale-commit per line item, in order (`webhooks.ts` lines 153-168). -/
def commitItems (l : Ledger) (items : List Item) : Ledger :=
  items.foldl (fun acc p => commitSaleL acc p.1 p.2) l

/-- The ingestion handler as its ordered list of state-mutating steps, run
after the dedup check: for a `checkout.session.completed` event whose cart is
found, insert the order then commit each line item's sale; in every case the
final step inserts the event id into the dedup ledger. The cart row itself is
never modified. -/
def processingSteps (st : SysState) (ev : StripeEvent) : List (SysState → SysState) :=
  if ev.type = "checkout.session.completed" then
    match ev.cartId with
    | some cid =>
      match findCart st.carts cid with
      | some cart =>
        (fun s => { s with orders := s.orders ++ [cid] }) ::
          cart.items.map (fun p => fun s => { s with ledger := commitSaleL s.ledger p.1 p.2 })
      | none => []
    | none => []
  else []

def ingestSteps (st : SysState) (ev : StripeEvent) : List (SysState → SysState) :=
  processingSteps st ev ++
    [fun s => { s with processedEvents := s.processedEvents ++ [ev.id] }]

/-- Run a list of steps in order. -/
def applySteps (st : SysState) (fs : List (SysState → SysState)) : SysState :=
  fs.foldl (fun s f => f s) st

/-- The Stripe webhook handler: if the event id is already in the dedup
ledger, return success without touching anything; otherwise run the steps. -/
def ingest (st : SysState) (ev : StripeEvent) : SysState :=
  if ev.id ∈ st.processedEvents then st
  else applySteps st (ingestSteps st ev)

/-- A run interrupted after the first `k` steps (crash before completion). -/
def ingestPrefix (st : SysState) (ev : StripeEvent) (k : Nat) : SysState :=
  applySteps st ((ingestSteps st ev).take k)

theorem applySteps_append (st : SysState) (fs gs : List (SysState → SysState)) :
    applySteps st (fs ++ gs) = applySteps (applySteps st fs) gs :=
  List.foldl_append _ _ _ _

theorem ingest_processed {st : SysState} {ev : StripeEvent}
    (h : ev.id ∈ st.processedEvents) : ingest st ev = st := by
  unfold ingest
  rw [if_pos h]

theorem applySteps_commit (items : List Item) (s : SysState) :
    applySteps s (items.map (fun p => fun s => { s with ledger := commitSaleL s.ledger p.1 p.2 })) =
    { s with ledger := commitItems s.ledger items } := by
  induction items generalizing s with
  | nil => rfl
  | cons p rest ih =>
    simp only [List.map_cons, applySteps, List.foldl_cons]
    have := ih { s with ledger := commitSaleL s.ledger p.1 p.2 }
    simp only [applySteps] at this
    rw [this]
    rfl

theorem applySteps_preserves_processed (s : SysState)
    (fs : List (SysState → SysState))
    (h : ∀ f ∈ fs, ∀ x, (f x).processedEvents = x.processedEvents) :
    (applySteps s fs).processedEvents = s.processedEvents := by
  induction fs generalizing s with
  | nil => rfl
  | cons f rest ih =>
    simp only [applySteps, List.foldl_cons]
    have h1 := ih (f s) (fun g hg => h g (List.mem_cons_of_mem f hg))
    simp only [applySteps] at h1
    rw [h1, h f (List.mem_cons_self f rest)]

/-- C4: a full sequential replay of the same Stripe event id creates exactly
one order and performs the inventory deductions exactly once; the event id is
appended to the dedup ledger only by the last step of processing (every
interrupted run leaves it unrecorded, so a crash retries safely), and the
second run leaves the state untouched. -/
theorem stripe_event_replay_idempotent
    (st : SysState) (ev : StripeEvent) (cid : String) (cart : CartRec)
    (hnew : ev.id ∉ st.processedEvents)
    (htype : ev.type = "checkout.session.completed")
    (hcid : ev.cartId = some cid)
    (hcart : findCart st.carts cid = some cart) :
    (ingest st ev).orders = st.orders ++ [cid] ∧
    (ingest st ev).ledger = commitItems st.ledger cart.items ∧
    (ingest st ev).processedEvents = st.processedEvents ++ [ev.id] ∧
    ingest (ingest st ev) ev = ingest st ev ∧
    (∀ k, k < (ingestSteps st ev).length →
      ev.id ∉ (ingestPrefix st ev k).processedEvents) := by
  have hproc : processingSteps st ev =
      (fun s => { s with orders := s.orders ++ [cid] }) ::
        cart.items.map (fun p => fun s => { s with ledger := commitSaleL s.ledger p.1 p.2 }) := by
    unfold processingSteps
    rw [if_pos htype, hcid]
    simp only [hcart]
  have hsteps : ingestSteps st ev =
      ((fun s => { s with orders := s.orders ++ [cid] }) ::
        cart.items.map (fun p => fun s => { s with ledger := commitSaleL s.ledger p.1 p.2 })) ++
      [fun s => { s with processedEvents := s.processedEvents ++ [ev.id] }] := by
    unfold ingestSteps
    rw [hproc]
  have hrun : ingest st ev = applySteps st (ingestSteps st ev) := by
    unfold ingest
    rw [if_neg hnew]
  have hmain : ingest st ev =
      { st with
        orders := st.orders ++ [cid],
        ledger := commitItems st.ledger cart.items,
        processedEvents := st.processedEvents ++ [ev.id] } := by
    rw [hrun, hsteps, applySteps_append]
    simp only [applySteps, List.foldl_cons, List.foldl_nil]
    have := applySteps_commit cart.items { st with orders := st.orders ++ [cid] }
    simp only [applySteps] at this
    rw [this]
  refine ⟨by rw [hmain], by rw [hmain], by rw [hmain], ?_, ?_⟩
  · refine ingest_processed ?_
    rw [hmain]
    simp
  · intro k hk
    rw [hsteps] at hk
    simp only [List.length_append, List.length_cons, List.length_map,
      List.length_nil] at hk
    have htake : (ingestSteps st ev).take k =
        (((fun s => { s with orders := s.orders ++ [cid] }) ::
          cart.items.map (fun p => fun s =>
            { s with ledger := commitSaleL s.ledger p.1 p.2 }))).take k := by
      rw [hsteps]
      refine List.take_append_of_le_length ?_
      simp only [List.length_cons, List.length_map]
      omega
    unfold ingestPrefix
    rw [htake]
    rw [applySteps_preserves_processed]
    · exact hnew
    · intro f hf x
      have hf2 := List.take_subset _ _ hf
      rcases List.mem_cons.mp hf2 with h1 | h2
      · rw [h1]
      · obtain ⟨p, _, hp⟩ := List.mem_map.mp h2
        rw [← hp]

/-- Witness for C4 at a concrete one-item cart and fresh event. -/
theorem stripe_event_replay_idempotent_witness :
    (("evt1" : String) ∉ (["evt0"] : List String) ∧
      ("checkout.session.completed" : String) = "checkout.session.completed" ∧
      (some "c1" : Option String) = some "c1" ∧
      findCart [⟨"c1", "checked_out", some "s1", 0, [("A", 2)], none⟩] "c1" =
        some ⟨"c1", "checked_out", some "s1", 0, [("A", 2)], none⟩) ∧
    ((ingest ⟨[("A", ⟨5, 2⟩)], [⟨"c1", "checked_out", some "s1", 0, [("A", 2)], none⟩],
        [], [], ["evt0"]⟩ ⟨"evt1", "checkout.session.completed", some "c1"⟩).orders =
      [] ++ ["c1"]) := by
  have h := stripe_event_replay_idempotent
    ⟨[("A", ⟨5, 2⟩)], [⟨"c1", "checked_out", some "s1", 0, [("A", 2)], none⟩],
      [], [], ["evt0"]⟩
    ⟨"evt1", "checkout.session.completed", some "c1"⟩
    "c1" ⟨"c1", "checked_out", some "s1", 0, [("A", 2)], none⟩
    (by decide) rfl rfl (by decide)
  exact ⟨⟨by decide, rfl, rfl, by decide⟩, h.1⟩

/-- The abandoned-checkout query predicate from `cron.ts` (line 46):
`status = 'checked_out' AND updated_at < cutoff AND stripe_checkout_session_id IS NOT NULL`.
Note that it does not exclude carts already linked to a finalized order. -/
def abandonedMatch (cutoff : Int) (c : CartRec) : Bool :=
  c.status == "checked_out" && decide (c.checkoutAt < cutoff) && c.sessionId.isSome

/-- Release every line item of a cart with the floored update (`cron.ts`). -/
def releaseItems (l : Ledger) (items : List Item) : Ledger :=
  items.foldl (fun acc p => releaseFlooredL acc p.1 p.2) l

/-- Roll back a cart's discount-usage reservation:
`UPDATE discounts SET usage_count = MAX(usage_count - 1, 0) WHERE id = ?`. -/
def releaseDiscount (ds : List (String × Discount)) (did : Option String) :
    List (String × Discount) :=
  match did with
  | none => ds
  | some i =>
    ds.map (fun p =>
      if p.1 = i then (p.1, { p.2 with usage_count := max (p.2.usage_count - 1) 0 })
      else p)

/-- The reaper's abandoned-checkout sweep (`cron.ts` lines 44-71): for every
cart matching the query, release each line item's reservation, roll back the
discount usage if any, and mark the cart `expired`. -/
def reapAbandoned (cutoff : Int) (st : SysState) : SysState :=
  let matching := st.carts.filter (abandonedMatch cutoff)
  { st with
    ledger := matching.foldl (fun acc c => releaseItems acc c.items) st.ledger,
    discounts := matching.foldl (fun acc c => releaseDiscount acc c.discountId) st.discounts,
    carts := st.carts.map (fun c =>
      if abandonedMatch cutoff c then { c with status := "expired" } else c) }

/-- C6: the sweep is NOT scoped to carts without a finalized order. Starting
from cart `c1` (checked out at time 0, session s1, item 2×A) and
`A = ⟨on_hand 5, reserved 3⟩` (2 units held by c1, 1 by some other cart),
ingesting c1's payment event creates its order and commits the sale
(`A = ⟨3, 1⟩`), but leaves the cart `checked_out` — so the sweep at cutoff
100 still matches it and re-releases the already-committed 2 units, wiping
the other cart's remaining hold (`reserved` ends at 0 instead of 1). -/
theorem reaper_releases_committed_reservation :
    (ingest ⟨[("A", ⟨5, 3⟩)], [⟨"c1", "checked_out", some "s1", 0, [("A", 2)], none⟩],
        [], [], []⟩ ⟨"evt1", "checkout.session.completed", some "c1"⟩).orders = ["c1"] ∧
    (ingest ⟨[("A", ⟨5, 3⟩)], [⟨"c1", "checked_out", some "s1", 0, [("A", 2)], none⟩],
        [], [], []⟩ ⟨"evt1", "checkout.session.completed", some "c1"⟩).ledger =
      [("A", ⟨3, 1⟩)] ∧
    (reapAbandoned 100
      (ingest ⟨[("A", ⟨5, 3⟩)], [⟨"c1", "checked_out", some "s1", 0, [("A", 2)], none⟩],
        [], [], []⟩ ⟨"evt1", "checkout.session.completed", some "c1"⟩)).ledger =
      [("A", ⟨3, 0⟩)] ∧
    lookupSku [("A", (⟨3, 0⟩ : Inv))] "A" ≠ some ⟨3, 1⟩ := by
  refine ⟨rfl, rfl, rfl, by decide⟩

/-! ### Outbound webhook delivery (`deliverWebhook` / `retryFailedDeliveries`) -/

/-- Delivery record states (`webhook_deliveries.status`). -/
inductive DeliveryStatus
  | pending
  | success
  | failed
deriving Repr, DecidableEq

/-- A delivery record: the columns the attempt loop mutates. -/
structure Delivery where
  status : DeliveryStatus
  attempts : Nat
  response_code : Option Int
deriving Repr, DecidableEq

/-- `MAX_ATTEMPTS = 3` in the dispatcher. -/
def MAX_ATTEMPTS : Nat := 3

/-- The attempt loop of `deliverWebhook`, driven by the endpoint's response to
each attempt (`some code` for an HTTP response, `none` for a network
failure/timeout exception). Per attempt: bump `attempts`; 2xx → terminal
`success`; 4xx other than 429 → terminal `failed`; otherwise retry after an
exponential backoff of `2 ^ attempt * 1000` ms, marking `failed` when the
attempt budget runs out. The second component collects the backoff delays
slept between attempts. -/
def runDeliveryAux (responses : Nat → Option Int) :
    Nat → Nat → Delivery → Delivery × List Nat
  | _, 0, d => ({ d with status := .failed }, [])
  | attempt, rem + 1, d =>
    let d1 := { d with attempts := attempt }
    match responses attempt with
    | some c =>
      if 200 ≤ c ∧ c < 300 then
        ({ d1 with status := .success, response_code := some c }, [])
      else if 400 ≤ c ∧ c < 500 ∧ c ≠ 429 then
        ({ d1 with status := .failed, response_code := some c }, [])
      else
        if rem = 0 then
          ({ d1 with status := .failed, response_code := some c }, [])
        else
          let r := runDeliveryAux responses (attempt + 1) rem
            { d1 with response_code := some c }
          (r.1, 2 ^ attempt * 1000 :: r.2)
    | none =>
      if rem = 0 then ({ d1 with status := .failed }, [])
      else
        let r := runDeliveryAux responses (attempt + 1) rem d1
        (r.1, 2 ^ attempt * 1000 :: r.2)

/-- Run `deliverWebhook` on a fresh `pending` record. -/
def runDelivery (responses : Nat → Option Int) : Delivery × List Nat :=
  runDeliveryAux responses 1 MAX_ATTEMPTS ⟨.pending, 0, none⟩

/-- The `retryFailedDeliveries` query predicate: re-queue a delivery iff its
status is `failed`, `attempts < MAX_ATTEMPTS`, the subscription is active and
the record is younger than 24 hours. -/
def sweepSelects (d : Delivery) (webhookActive within24h : Bool) : Bool :=
  decide (d.status = .failed) && decide (d.attempts < MAX_ATTEMPTS) &&
    webhookActive && within24h

/-- C7 counterexample: an endpoint answering 410 on the first attempt yields a
`failed` record with `attempts = 1` — but the periodic failed-delivery sweep
re-queues exactly that record (status failed, attempts 1 < 3), so the failure
is not terminal, refuting "never automatically retried ... nor by the
periodic failed-delivery sweep". -/
theorem http_410_delivery_requeued_by_sweep :
    runDelivery (fun _ => some 410) = (⟨.failed, 1, some 410⟩, []) ∧
    sweepSelects ⟨.failed, 1, some 410⟩ true true = true := by
  constructor
  · rfl
  · decide

/-- C7 amended: a first-attempt 4xx response other than 429 marks the
delivery `failed` immediately with `attempts = 1` and the in-process loop
stops (no further attempt, no backoff sleeps); but it is not terminal: the
periodic failed-delivery sweep re-queues it whenever the subscription is
active and the record is younger than 24 hours, since its query keeps every
failed delivery with `attempts < 3`. -/
theorem webhook_4xx_first_attempt_failed_then_swept
    (responses : Nat → Option Int) (c : Int)
    (h1 : responses 1 = some c) (h4 : 400 ≤ c) (h5 : c < 500) (h9 : c ≠ 429) :
    runDelivery responses = (⟨.failed, 1, some c⟩, []) ∧
    sweepSelects ⟨.failed, 1, some c⟩ true true = true := by
  constructor
  · show runDeliveryAux responses 1 3 ⟨.pending, 0, none⟩ = _
    simp only [runDeliveryAux, h1]
    rw [if_neg (by omega : ¬(200 ≤ c ∧ c < 300))]
    rw [if_pos ⟨h4, h5, h9⟩]
  · simp [sweepSelects, MAX_ATTEMPTS]

/-- Witness for C7's amended theorem at a constant-410 endpoint. -/
theorem webhook_4xx_first_attempt_failed_then_swept_witness :
    runDelivery (fun _ => some 410) = (⟨.failed, 1, some 410⟩, []) ∧
    sweepSelects ⟨.failed, 1, some 410⟩ true true = true :=
  webhook_4xx_first_attempt_failed_then_swept (fun _ => some 410) 410
    rfl (by decide) (by decide) (by decide)

/-- C8: an endpoint answering 500 on every attempt: the loop retries with
exponential backoff (2s then 4s between the three attempts), ends with the
record `failed` at `attempts = 3`, and the periodic sweep does not re-queue
it (its query requires `attempts < 3`). -/
theorem webhook_500_exhausts_attempts_no_requeue
    (responses : Nat → Option Int) (h : ∀ i, responses i = some 500) :
    runDelivery responses = (⟨.failed, 3, some 500⟩, [2 ^ 1 * 1000, 2 ^ 2 * 1000]) ∧
    (∀ a w, sweepSelects ⟨.failed, 3, some 500⟩ a w = false) := by
  constructor
  · show runDeliveryAux responses 1 3 ⟨.pending, 0, none⟩ = _
    simp only [runDeliveryAux, h]
    norm_num
  · intro a w
    simp [sweepSelects, MAX_ATTEMPTS]

/-- Witness for C8 at a constant-500 endpoint. -/
theorem webhook_500_exhausts_attempts_no_requeue_witness :
    runDelivery (fun _ => some 500) = (⟨.failed, 3, some 500⟩, [2 ^ 1 * 1000, 2 ^ 2 * 1000]) ∧
    (∀ a w, sweepSelects ⟨.failed, 3, some 500⟩ a w = false) :=
  webhook_500_exhausts_attempts_no_requeue (fun _ => some 500) (fun _ => rfl)

/-! ### Cart item submission (`POST /v1/carts/:cartId/items`) -/

/-- A catalog variant row: the fields the item-add handler reads. -/
structure Variant where
  status : String
  price_cents : Int
deriving Repr, DecidableEq

/-- The store's variants table, keyed by SKU. -/
abbrev Catalog := List (String × Variant)

/-- `SELECT * FROM variants WHERE sku = ?`. -/
def lookupVariant (cat : Catalog) (sku : String) : Option Variant :=
  match cat with
  | [] => none
  | (s, v) :: rest => if s = sku then some v else lookupVariant rest sku

/-- Available units as the handler computes them:
`(inv?.on_hand ?? 0) - (inv?.reserved ?? 0)` (a missing row counts as 0). -/
def availableOf (l : Ledger) (sku : String) : Int :=
  match lookupSku l sku with
  | none => 0
  | some i => i.on_hand - i.reserved

/-- The error classes the item-add handler can throw. -/
inductive AddItemsError
  | invalidRequest
  | notFound
  | insufficientInventory
  | conflict
deriving Repr, DecidableEq

/-- The per-item insertion loop of the handler, run after the
`DELETE FROM cart_items` statement: validate sku/qty, look up the variant,
require it active, require available stock, then insert. A thrown error
carries the cart's item rows at that moment (the rows inserted so far — the
previous contents are already gone). -/
def addItemsLoop (cat : Catalog) (l : Ledger) :
    List Item → List Item → Except (AddItemsError × List Item) (List Item)
  | [], acc => .ok acc
  | (sku, qty) :: rest, acc =>
    if sku = "" ∨ qty < 1 then .error (.invalidRequest, acc)
    else
      match lookupVariant cat sku with
      | none => .error (.notFound, acc)
      | some v =>
        if v.status ≠ "active" then .error (.invalidRequest, acc)
        else if availableOf l sku < qty then .error (.insufficientInventory, acc)
        else addItemsLoop cat l rest (acc ++ [(sku, qty)])

/-- The item-add handler: reject an empty submission and a non-open cart
before touching the item rows; otherwise delete every existing row and run
the insertion loop from an empty cart. The result (ok or error) carries the
cart's item rows afterwards. -/
def addItems (cartStatus : String) (oldItems : List Item) (cat : Catalog)
    (l : Ledger) (submitted : List Item) :
    Except (AddItemsError × List Item) (List Item) :=
  if submitted = [] then .error (.invalidRequest, oldItems)
  else if cartStatus ≠ "open" then .error (.conflict, oldItems)
  else addItemsLoop cat l submitted []

theorem addItemsLoop_ok (cat : Catalog) (l : Ledger) :
    ∀ (rest acc new : List Item),
      addItemsLoop cat l rest acc = .ok new → new = acc ++ rest := by
  intro rest
  induction rest with
  | nil =>
    intro acc new h
    simp only [addItemsLoop] at h
    cases h
    simp
  | cons p rest ih =>
    intro acc new h
    obtain ⟨sku, qty⟩ := p
    simp only [addItemsLoop] at h
    split at h
    · cases h
    · split at h
      · cases h
      · split at h
        · cases h
        · split at h
          · cases h
          · have := ih (acc ++ [(sku, qty)]) new h
            simp [this]

theorem addItemsLoop_error (cat : Catalog) (l : Ledger) :
    ∀ (rest acc : List Item) (e : AddItemsError) (cur : List Item),
      addItemsLoop cat l rest acc = .error (e, cur) →
      ∃ pre suf, rest = pre ++ suf ∧ suf ≠ [] ∧ cur = acc ++ pre := by
  intro rest
  induction rest with
  | nil =>
    intro acc e cur h
    simp only [addItemsLoop] at h
    cases h
  | cons p rest ih =>
    intro acc e cur h
    obtain ⟨sku, qty⟩ := p
    simp only [addItemsLoop] at h
    split at h
    · cases h
      exact ⟨[], (sku, qty) :: rest, by simp, by simp, by simp⟩
    · split at h
      · cases h
        exact ⟨[], (sku, qty) :: rest, by simp, by simp, by simp⟩
      · split at h
        · cases h
          exact ⟨[], (sku, qty) :: rest, by simp, by simp, by simp⟩
        · split at h
          · cases h
            exact ⟨[], (sku, qty) :: rest, by simp, by simp, by simp⟩
          · obtain ⟨pre, suf, h1, h2, h3⟩ := ih (acc ++ [(sku, qty)]) e cur h
            exact ⟨(sku, qty) :: pre, suf, by simp [h1], h2, by simp [h3]⟩

/-- C10: submitting items to an open cart replaces its contents. On success
the cart holds exactly the submitted items; if some submitted item is
rejected part-way, the cart holds only the already-accepted prefix of the
submission (strictly shorter than it) — and the outcome does not depend on
the previously stored items at all, so they are gone and never restored. -/
theorem add_items_replaces_contents
    (old : List Item) (cat : Catalog) (l : Ledger) (sub : List Item)
    (hne : sub ≠ []) :
    (∀ new, addItems "open" old cat l sub = .ok new → new = sub) ∧
    (∀ e cur, addItems "open" old cat l sub = .error (e, cur) →
      cur = sub.take cur.length ∧ cur.length < sub.length) ∧
    (∀ old2, addItems "open" old2 cat l sub = addItems "open" old cat l sub) := by
  have hopen : ¬ ("open" : String) ≠ "open" := by simp
  refine ⟨?_, ?_, ?_⟩
  · intro new h
    unfold addItems at h
    rw [if_neg hne, if_neg hopen] at h
    simpa using addItemsLoop_ok cat l sub [] new h
  · intro e cur h
    unfold addItems at h
    rw [if_neg hne, if_neg hopen] at h
    obtain ⟨pre, suf, h1, h2, h3⟩ := addItemsLoop_error cat l sub [] e cur h
    simp only [List.nil_append] at h3
    subst h3
    constructor
    · rw [h1, List.take_append_of_le_length (le_refl _), List.take_length]
    · rw [h1]
      simp only [List.length_append]
      have : suf.length ≠ 0 := by
        intro hz
        exact h2 (List.length_eq_zero.mp hz)
      omega
  · intro old2
    unfold addItems
    rw [if_neg hne, if_neg hopen, if_neg hne, if_neg hopen]

/-- Witness for C10 at a concrete cart: old contents `[("X",1)]` replaced by
the single submitted line `[("A",2)]`. -/
theorem add_items_replaces_contents_witness :
    ((["A", "B"].map (fun s => (s, (1 : Int)))) ≠ [] → True) ∧
    (∀ new, addItems "open" [("X", 1)] [("A", ⟨"active", 100⟩)] [("A", ⟨5, 0⟩)]
        [("A", 2)] = .ok new → new = [("A", 2)]) := by
  have h := add_items_replaces_contents [("X", 1)] [("A", ⟨"active", 100⟩)]
    [("A", ⟨5, 0⟩)] [("A", 2)] (by decide)
  exact ⟨fun _ => trivial, h.1⟩

end Merchant
